import Mathlib

/-!
Verification development for the CSV-to-XLSX question import converter
(`csv_to_xlsx_converter.py`).  The Python source is shallowly embedded:
strings are Lean `String`s (Python string methods are re-implemented over
the character list), dictionaries keyed by insertion order become
association lists, and the one operation that can raise at runtime —
Python's `sorted` with a key function producing values of mixed types —
is modelled in the `Except` monad.
-/

namespace CsvToXlsx

/-! ## Python string primitives -/

/-- Whitespace characters stripped by Python's `str.strip()` (ASCII subset). -/
def isPyWs (c : Char) : Bool :=
  c == ' ' || c == '\t' || c == '\n' || c == '\r' || c == '\x0b' || c == '\x0c'

/-- Python `str.strip()` on a character list. -/
def stripL (l : List Char) : List Char :=
  ((l.dropWhile isPyWs).reverse.dropWhile isPyWs).reverse

/-- Python `str.strip()`. -/
def pyStrip (s : String) : String := String.mk (stripL s.data)

/-- Uppercase one character (ASCII), as Python `str.upper()` does per char. -/
def upperChar (c : Char) : Char :=
  if 'a' ≤ c ∧ c ≤ 'z' then Char.ofNat (c.toNat - 32) else c

/-- Lowercase one character (ASCII), as Python `str.lower()` does per char. -/
def lowerChar (c : Char) : Char :=
  if 'A' ≤ c ∧ c ≤ 'Z' then Char.ofNat (c.toNat + 32) else c

/-- Python `str.upper()` (ASCII model). -/
def pyUpper (s : String) : String := String.mk (s.data.map upperChar)

/-- Python `str.lower()` (ASCII model). -/
def pyLower (s : String) : String := String.mk (s.data.map lowerChar)

/-- Python `str.isdigit()` (ASCII model): nonempty and all digits. -/
def isDigitL (l : List Char) : Bool := !l.isEmpty && l.all Char.isDigit

/-- Python `str.isalpha()` (ASCII model): nonempty and all letters. -/
def isAlphaL (l : List Char) : Bool := !l.isEmpty && l.all Char.isAlpha

/-- Python `int()` on a string of decimal digits. -/
def natOfDigits (l : List Char) : Nat :=
  l.foldl (fun n c => n * 10 + (c.toNat - 48)) 0

/-- Python `str.split(',')`: split at every comma, keeping empty pieces. -/
def splitComma : List Char → List (List Char)
  | [] => [[]]
  | c :: rest =>
    if c == ',' then [] :: splitComma rest
    else
      match splitComma rest with
      | [] => [[c]]
      | h :: t => (c :: h) :: t

/-- Python `','` membership test (`',' in s`). -/
def hasComma (s : String) : Bool := s.data.contains ','

/-- Python `chr` restricted to the code points this program produces. -/
def pyChr (n : Int) : Char := Char.ofNat n.toNat

/-! ## Data model -/

/-- One input CSV row, as the fields the converter reads: the `Question`,
`Explanation`, `Source` and `Correct Answer` columns, plus the values of
the `Choice 1`, `Choice 2`, … columns in order (a missing column ends the
list). -/
structure RawRecord where
  question : String
  explanation : String
  source : String
  correctAnswer : String
  choiceCols : List String
deriving DecidableEq, Repr

/-- The canonical question entry built by `parse_csv_questions` (the
Python dict with keys `type`, `question`, `explanation`, `choices`,
`correct_indices`, `source`). -/
structure Question where
  type : String
  question : String
  explanation : String
  choices : List String
  correct_indices : List Int
  source : String
deriving DecidableEq, Repr

/-! ## Question parser (`parse_csv_questions`, lines 13–88) -/

/-- Choice extraction (lines 30–38): scan `Choice 1`, `Choice 2`, …,
stopping at the first missing or whitespace-only value; collect the
stripped values. -/
def extractChoices (cols : List String) : List String :=
  (cols.takeWhile (fun s => pyStrip s ≠ "")).map pyStrip

/-- One comma-separated correct-answer token (lines 50–57): strip and
uppercase; all-digit tokens give `int(x) - 1`, single-letter tokens give
`ord(x) - ord 'A'`, anything else is dropped. -/
def resolveToken (tok : List Char) : Option Int :=
  let x := (stripL tok).map upperChar
  if isDigitL x then some ((natOfDigits x : Int) - 1)
  else if x.length = 1 ∧ isAlphaL x then some (((x.headD ' ').toNat : Int) - 65)
  else none

/-- Multi-answer resolution (lines 49–57): split the correct-answer field
on commas and resolve each token, silently skipping unresolvable ones. -/
def multiIndices (ca : String) : List Int :=
  (splitComma ca.data).filterMap resolveToken

/-- Free-text fallback (lines 68–74): first choice matching the
correct-answer text case-insensitively, if any. -/
def textMatch (choices : List String) (ca : String) : List Int :=
  match choices.findIdx? (fun c => pyLower c == pyLower ca) with
  | some i => [(i : Int)]
  | none => []

/-- Parse a single CSV row into a question entry (the body of the
`for row in reader` loop, lines 20–86); `none` when the `Question` field
is blank and the row is skipped. -/
def parseRecord (r : RawRecord) : Option Question :=
  if pyStrip r.question = "" then none
  else
    let question_text := pyStrip r.question
    let explanation := pyStrip r.explanation
    let source := pyStrip r.source
    let choices := extractChoices r.choiceCols
    let correct_answer := pyStrip r.correctAnswer
    let question_type : String :=
      if choices.length = 2 ∧ "True" ∈ choices ∧ "False" ∈ choices then "TF" else "MC"
    if hasComma correct_answer then
      some { type := "MA", question := question_text, explanation := explanation,
             choices := choices, correct_indices := multiIndices correct_answer,
             source := source }
    else if pyLower correct_answer = "true" ∨ pyLower correct_answer = "false" then
      some { type := question_type, question := question_text, explanation := explanation,
             choices := choices,
             correct_indices := [if pyLower correct_answer = "true" then 0 else 1],
             source := source }
    else if isDigitL correct_answer.data then
      some { type := question_type, question := question_text, explanation := explanation,
             choices := choices,
             correct_indices := [(natOfDigits correct_answer.data : Int) - 1],
             source := source }
    else if (pyStrip correct_answer).length = 1 ∧ isAlphaL ((pyStrip correct_answer).data.map upperChar) then
      some { type := question_type, question := question_text, explanation := explanation,
             choices := choices,
             correct_indices := [((((pyStrip correct_answer).data.map upperChar).headD ' ').toNat : Int) - 65],
             source := source }
    else
      some { type := question_type, question := question_text, explanation := explanation,
             choices := choices, correct_indices := textMatch choices correct_answer,
             source := source }

/-- `parse_csv_questions`: parse every row, keeping input order; rows with
a blank `Question` field are dropped. -/
def parse_csv_questions (records : List RawRecord) : List Question :=
  records.filterMap parseRecord

/-! ## Output table builder (`create_xlsx_output`, lines 90–212) -/

/-- A spreadsheet cell: the Python rows mix strings and ints. -/
inductive Cell where
  | str (s : String)
  | int (n : Int)
deriving DecidableEq, Repr

/-- The effective section for a question (`q['source'] if q['source'] else
section_id`, lines 103, 140, 194). -/
def effSource (sectionId : String) (q : Question) : String :=
  if q.source ≠ "" then q.source else sectionId

/-- The Correct-column marker for choice index `i` of question `q`
(`'1' if i in q['correct_indices'] else ''`, lines 109, 122). -/
def markCell (i : Nat) (q : Question) : String :=
  if (i : Int) ∈ q.correct_indices then "1" else ""

/-- The unconditional 7-cell separator row (line 129). -/
def blankRow : List String := ["", "", "", "", "", "", ""]

/-- The Questions-sheet block for one question (lines 99–129): a first row
with the question fields and `choices[0]`, one row per remaining choice,
then the blank separator row; a question with no choices contributes only
the blank row. -/
def questionRows (sectionId : String) (q : Question) : List (List String) :=
  (match q.choices with
   | [] => []
   | c0 :: rest =>
     [q.type, q.question, q.explanation, c0, markCell 0 q, "ID", effSource sectionId q] ::
       (rest.enumFrom 1).map
         (fun ic => ["", "", "", ic.2, markCell ic.1 q, "", ""]))
  ++ [blankRow]

/-- The Questions-sheet header row (line 97). -/
def headerRow : List String :=
  ["Type", "Question", "Explanation", "Answer", "Correct", "Meta Key", "Meta Value"]

/-- The full Questions table (header plus every question's block). -/
def questionsTable (questions : List Question) (sectionId : String) : List (List String) :=
  headerRow :: (questions.map (questionRows sectionId)).flatten

/-- Increment the count stored under key `k` in an insertion-ordered
association list (`section_counts.get(...) + 1`, line 141, with Python
dict insertion-order semantics). -/
def bump (k : String) : List (String × Nat) → List (String × Nat)
  | [] => [(k, 1)]
  | (k', c) :: rest => if k = k' then (k', c + 1) :: rest else (k', c) :: bump k rest

/-- Per-section question counts (lines 138–141), keys in first-occurrence
order as a Python dict iterates them. -/
def sectionCounts (questions : List Question) (sectionId : String) : List (String × Nat) :=
  questions.foldl (fun acc q => bump (effSource sectionId q) acc) []

/-- Maximal runs of digits in a character list, left to right
(`re.findall(r'\d+', section)`, line 161); accumulator holds the current
run reversed. -/
def digitRunsAux : List Char → List Char → List (List Char)
  | [], acc => if acc.isEmpty then [] else [acc.reverse]
  | c :: rest, acc =>
    if c.isDigit then digitRunsAux rest (c :: acc)
    else if acc.isEmpty then digitRunsAux rest []
    else acc.reverse :: digitRunsAux rest []

/-- All maximal digit groups of a string. -/
def digitGroups (s : String) : List (List Char) := digitRunsAux s.data []

/-- The key produced by `natural_sort_key` (lines 156–165): a tuple of
integers when the section has at least two digit groups, else the 1-tuple
holding the raw section string. -/
inductive SortKey where
  | nats (l : List Nat)
  | str (s : String)
deriving DecidableEq, Repr

/-- `natural_sort_key` (lines 156–165) applied to a `(section, count)`
item. -/
def natural_sort_key (item : String × Nat) : SortKey :=
  let parts := digitGroups item.1
  if parts.length ≥ 2 then SortKey.nats (parts.map natOfDigits)
  else SortKey.str item.1

/-- Lexicographic comparison of integer tuples, as Python compares
tuples of ints (a strict prefix is smaller). -/
def lexLeNat : List Nat → List Nat → Bool
  | [], _ => true
  | _ :: _, [] => false
  | a :: as, b :: bs => if a < b then true else if b < a then false else lexLeNat as bs

/-- Lexicographic comparison of character lists by code point, as Python
compares strings. -/
def lexLeChar : List Char → List Char → Bool
  | [], _ => true
  | _ :: _, [] => false
  | a :: as, b :: bs =>
    if a.toNat < b.toNat then true
    else if b.toNat < a.toNat then false
    else lexLeChar as bs

/-- Comparing two sort keys, as CPython compares the key tuples: two
integer tuples or two string tuples compare lexicographically, while a
mixed comparison raises `TypeError`. -/
def keyLe : SortKey → SortKey → Except String Bool
  | SortKey.nats a, SortKey.nats b => Except.ok (lexLeNat a b)
  | SortKey.str a, SortKey.str b => Except.ok (lexLeChar a.data b.data)
  | _, _ => Except.error "TypeError"

/-- Comparison of two `(section, count)` items by their sort keys
(Python's `sorted(..., key=natural_sort_key)` compares keys only). -/
def itemLe (a b : String × Nat) : Except String Bool :=
  keyLe (natural_sort_key a) (natural_sort_key b)

/-- Insert `x` into an already sorted list under a comparison that can
raise; propagates the first failing comparison, as CPython's sort
propagates `TypeError`. -/
def insertE (cmp : α → α → Except String Bool) (x : α) : List α → Except String (List α)
  | [] => Except.ok [x]
  | y :: ys =>
    match cmp x y with
    | Except.error e => Except.error e
    | Except.ok true => Except.ok (x :: y :: ys)
    | Except.ok false =>
      match insertE cmp x ys with
      | Except.error e => Except.error e
      | Except.ok r => Except.ok (y :: r)

/-- Model of Python's `sorted` with a comparison that can raise: a stable
insertion sort in the `Except` monad.  It agrees with CPython's sort on
when a `TypeError` escapes (exactly when two keys of mixed kinds get
compared, which for a key set containing both kinds always happens) and
on the resulting order when all comparisons succeed (both sorts are
stable). -/
def sortE (cmp : α → α → Except String Bool) : List α → Except String (List α)
  | [] => Except.ok []
  | x :: xs =>
    match sortE cmp xs with
    | Except.error e => Except.error e
    | Except.ok r => insertE cmp x r

/-- Total insertion of `x` into a sorted list under a boolean comparison
(used for Python's `sorted` over same-type letter strings, line 185). -/
def insertLe (le : α → α → Bool) (x : α) : List α → List α
  | [] => [x]
  | y :: ys => if le x y then x :: y :: ys else y :: insertLe le x ys

/-- Total stable insertion sort under a boolean comparison. -/
def sortLe (le : α → α → Bool) : List α → List α
  | [] => []
  | x :: xs => insertLe le x (sortLe le xs)

/-- Python string `≤` by code points (restricted to what `sorted` needs
for the one-character letter strings). -/
def pyStrLe (a b : String) : Bool := lexLeChar a.data b.data

/-- Join with `", "` (`', '.join(...)`, line 185). -/
def joinCommaSpace : List String → String
  | [] => ""
  | [s] => s
  | s :: rest => s ++ ", " ++ joinCommaSpace rest

/-- The Debug audit row's Correct Answer cell (lines 181–185): empty when
there are no correct indices, else the comma-joined sorted letters
`chr(65 + idx)`. -/
def correctLetter (q : Question) : String :=
  if q.correct_indices.isEmpty then ""
  else
    joinCommaSpace
      (sortLe pyStrLe (q.correct_indices.map (fun idx => String.mk [pyChr (65 + idx)])))

/-- The Debug audit row's question preview (line 188): the full text when
at most 50 characters, else the first 47 characters plus `"..."`. -/
def questionPreview (t : String) : String :=
  if t.length > 50 then String.mk (t.data.take 47) ++ "..." else t

/-- One per-question audit row of the Debug sheet (lines 179–202),
`i` being the 1-based question number. -/
def auditRow (sectionId : String) (i : Nat) (q : Question) : List Cell :=
  [Cell.str (effSource sectionId q),
   Cell.str (toString i),
   Cell.str (questionPreview q.question),
   Cell.str (correctLetter q),
   Cell.str "",
   Cell.str (if pyStrip q.explanation ≠ "" then "Yes" else "No")]

/-- The Debug sheet (lines 135–205): summary block, naturally sorted
Track Details rows, static error block, audit header and one audit row
per question.  Raises (returns `Except.error`) exactly when Python's
`sorted` call on the section counts raises. -/
def debugTable (questions : List Question) (sectionId : String) :
    Except String (List (List Cell)) :=
  let counts := sectionCounts questions sectionId
  match sortE itemLe counts with
  | Except.error e => Except.error e
  | Except.ok sortedCounts =>
    Except.ok
      ([[Cell.str "Metric", Cell.str "Value"],
        [Cell.str "Total Questions Parsed", Cell.int (questions.length : Int)],
        [Cell.str "Total Tracks/Sections", Cell.int (counts.length : Int)],
        [Cell.str "Keep Answer Prefixes", Cell.str "No"],
        [Cell.str "Parsing Errors", Cell.int 0],
        [Cell.str ""],
        [Cell.str "Track Details"]]
       ++ sortedCounts.map
            (fun p => [Cell.str ("  " ++ p.1), Cell.str (toString p.2 ++ " questions")])
       ++ [[Cell.str ""],
           [Cell.str "Parsing Errors:"],
           [Cell.str "  None detected"],
           [Cell.str ""],
           [Cell.str "Track", Cell.str "Q#", Cell.str "Question Preview",
            Cell.str "Correct Answer", Cell.str "Page Ref", Cell.str "Has Explanation"]]
       ++ (questions.enumFrom 1).map (fun iq => auditRow sectionId iq.1 iq.2))

/-- `create_xlsx_output` as observable data: the Questions table and the
Debug table; when the Debug sort raises, the uncaught exception means no
output file is produced at all. -/
def create_xlsx_output (questions : List Question) (sectionId : String) :
    Except String (List (List String) × List (List Cell)) :=
  match debugTable questions sectionId with
  | Except.error e => Except.error e
  | Except.ok dbg => Except.ok (questionsTable questions sectionId, dbg)

/-- The core of `main` after reading the file (lines 228–253): parse,
abort with the "No questions found" failure when nothing parsed, pick the
section id from the first question's source (falling back to the
filename-derived id supplied by the caller), and build both tables. -/
def runConvert (records : List RawRecord) (fallbackSectionId : String) :
    Except String (List (List String) × List (List Cell)) :=
  let questions := parse_csv_questions records
  if questions.isEmpty then Except.error "No questions found in CSV file"
  else
    let sectionId :=
      match questions with
      | [] => fallbackSectionId
      | q :: _ => if q.source ≠ "" then pyStrip q.source else fallbackSectionId
    create_xlsx_output questions sectionId

/-! ## Concrete inputs used to evaluate the embedded code -/

/-- A question whose source has two numeric groups, giving a
tuple-of-integers natural-sort key. -/
def numKeyQuestion : Question :=
  { type := "MC", question := "First?", explanation := "", choices := ["x", "y"],
    correct_indices := [0], source := "1.2" }

/-- A question whose source has no numeric group, giving the
string-fallback natural-sort key. -/
def strKeyQuestion : Question :=
  { type := "MC", question := "Second?", explanation := "", choices := ["x", "y"],
    correct_indices := [1], source := "misc" }

/-- A record parsing to a question with a two-numeric-group source. -/
def mixedRec1 : RawRecord :=
  { question := "Q one", explanation := "", source := "2.3", correctAnswer := "1",
    choiceCols := ["a", "b"] }

/-- A record parsing to a question with a no-numeric-group source. -/
def mixedRec2 : RawRecord :=
  { question := "Q two", explanation := "", source := "misc", correctAnswer := "2",
    choiceCols := ["a", "b"] }

/-- A record with a whitespace-only `Question` field, which the parser
skips. -/
def blankRec : RawRecord :=
  { question := "   ", explanation := "", source := "", correctAnswer := "1",
    choiceCols := ["a"] }

/-- A 60-character question text. -/
def text60 : String := String.mk (List.replicate 60 'a')

/-- A 50-character question text. -/
def text50 : String := String.mk (List.replicate 50 'b')

/-- A small record list exercising the determinism claim. -/
def determRecs : List RawRecord :=
  [{ question := "Q?", explanation := "E", source := "3.1", correctAnswer := "A, 2",
     choiceCols := ["u", "v", "w"] }]

/-- A record whose two choices are `True`/`False` but whose correct-answer
field contains a comma. -/
def tfCommaRec : RawRecord :=
  { question := "Is it?", explanation := "", source := "", correctAnswer := "1,2",
    choiceCols := ["True", "False"] }

/-- A True/False record with no comma in its correct-answer field. -/
def tfPlainRec : RawRecord :=
  { question := "Is it?", explanation := "", source := "", correctAnswer := "True",
    choiceCols := ["True", "False"] }

/-- The question parsed from `tfPlainRec`. -/
def tfPlainQ : Question :=
  { type := "TF", question := "Is it?", explanation := "", choices := ["True", "False"],
    correct_indices := [0], source := "" }

/-- A record whose comma-separated correct-answer tokens `1` and `A` both
resolve to index 0. -/
def dupTokenRec : RawRecord :=
  { question := "Q", explanation := "", source := "", correctAnswer := "1, A",
    choiceCols := ["a", "b"] }

/-- A record resolved through the single-letter branch. -/
def letterRec : RawRecord :=
  { question := "Q", explanation := "", source := "", correctAnswer := "C",
    choiceCols := ["a", "b", "c"] }

/-- The question parsed from `letterRec`. -/
def letterQ : Question :=
  { type := "MC", question := "Q", explanation := "", choices := ["a", "b", "c"],
    correct_indices := [2], source := "" }

/-- The record of the spec's multi-answer example: correct answer
`"1, 3"` with four choices. -/
def multiRec : RawRecord :=
  { question := "Pick two", explanation := "", source := "", correctAnswer := "1, 3",
    choiceCols := ["a", "b", "c", "d"] }

/-- The question parsed from `multiRec`. -/
def multiQ : Question :=
  { type := "MA", question := "Pick two", explanation := "", choices := ["a", "b", "c", "d"],
    correct_indices := [0, 2], source := "" }

/-- Questions under two sources, three questions in total. -/
def partitionQs : List Question :=
  [{ type := "MC", question := "A?", explanation := "", choices := ["x"],
     correct_indices := [0], source := "1.1" },
   { type := "MC", question := "B?", explanation := "", choices := ["x"],
     correct_indices := [0], source := "1.2" },
   { type := "MC", question := "C?", explanation := "", choices := ["x"],
     correct_indices := [0], source := "1.1" }]

/-- A question with four choices whose single derived correct index 8
(from correct answer `"9"`) is out of range. -/
def outOfRangeQ : Question :=
  { type := "MC", question := "Q", explanation := "", choices := ["a", "b", "c", "d"],
    correct_indices := [8], source := "" }

/-! ## General lemmas -/

/-- Each question's Questions-sheet block has one row per choice plus the
blank separator row. -/
theorem questionRows_length (sid : String) (q : Question) :
    (questionRows sid q).length = q.choices.length + 1 := by
  unfold questionRows
  cases q.choices with
  | nil => rfl
  | cons c0 rest => simp [List.enumFrom_length]

/-- Summing `f + 1` over a list adds the list's length to the sum of `f`. -/
theorem sum_map_succ {α : Type} (l : List α) (f : α → Nat) :
    (l.map (fun a => f a + 1)).sum = (l.map f).sum + l.length := by
  induction l with
  | nil => rfl
  | cons a l ih => simp [ih]; omega

/-- A question block always ends with the blank separator row. -/
theorem questionRows_getLast (sid : String) (q : Question) :
    (questionRows sid q).getLast? = some blankRow := by
  unfold questionRows
  exact List.getLast?_concat _

/-! ## Claims -/

/-- Claim C1: building the Debug table for a source-tag set containing
both a two-numeric-group tag and a no-numeric-group tag does NOT
terminate normally — comparing the tuple-of-integers key with the
tuple-of-string key raises `TypeError`, exactly as the comparison does in
CPython — while each kind of tag on its own sorts fine.  This evaluates
the embedded code at the failing input. -/
theorem c1_mixed_natural_sort_raises :
    debugTable [numKeyQuestion, strKeyQuestion] "DTOX101-LESSON1" =
        Except.error "TypeError" ∧
      (debugTable [numKeyQuestion] "DTOX101-LESSON1").isOk = true ∧
      (debugTable [strKeyQuestion] "DTOX101-LESSON1").isOk = true ∧
      keyLe (natural_sort_key ("1.2", 1)) (natural_sort_key ("misc", 1)) =
        Except.error "TypeError" :=
  ⟨rfl, rfl, rfl, rfl⟩

/-- Claim C5: the run aborts with the designed "No questions found"
failure exactly when parsing produces zero Questions (empty input, or
only blank-question records) — but it can also abort on nonempty parses:
with two parsed questions whose sources have mixed natural-sort key
kinds, the Debug sort raises `TypeError` and the run dies before any
table is produced, contradicting the claim's "if and only if". -/
theorem c5_abort_behaviour :
    runConvert [] "FALLBACK" = Except.error "No questions found in CSV file" ∧
      runConvert [blankRec] "FALLBACK" = Except.error "No questions found in CSV file" ∧
      (parse_csv_questions [mixedRec1, mixedRec2]).length = 2 ∧
      runConvert [mixedRec1, mixedRec2] "FALLBACK" = Except.error "TypeError" :=
  ⟨rfl, rfl, rfl, rfl⟩

/-- Claim C6: the Questions table consists of the header row plus, for
each question, one data row per choice and one unconditional blank
separator row — so its total length is `1 + N + (c_1 + … + c_N)`, each
question's block has `c_i + 1` rows, and every block ends with the blank
row (a choice-less question contributes only its blank row). -/
theorem c6_questions_table_row_count :
    ∀ (questions : List Question) (sid : String) (q : Question),
      (questionsTable questions sid).length =
          1 + questions.length + (questions.map (fun q => q.choices.length)).sum ∧
        (questionRows sid q).length = q.choices.length + 1 ∧
        (questionRows sid q).getLast? = some blankRow := by
  intro questions sid q
  refine ⟨?_, questionRows_length sid q, questionRows_getLast sid q⟩
  unfold questionsTable
  rw [List.length_cons, List.length_flatten, List.map_map]
  have : (List.map (List.length ∘ questionRows sid) questions) =
      List.map (fun q => q.choices.length + 1) questions := by
    apply List.map_congr_left
    intro a _
    exact questionRows_length sid a
  rw [this, sum_map_succ]
  omega

/-- Claim C7: the Debug audit preview is the full question text when it
has at most 50 characters; otherwise it is the first 47 characters
followed by `"..."`, which is 50 characters in total. -/
theorem c7_preview_truncation :
    ∀ t : String,
      (t.length ≤ 50 → questionPreview t = t) ∧
        (50 < t.length →
          questionPreview t = String.mk (t.data.take 47) ++ "..." ∧
            (questionPreview t).length = 50) := by
  intro t
  constructor
  · intro h
    unfold questionPreview
    rw [if_neg (by omega)]
  · intro h
    have he : questionPreview t = String.mk (t.data.take 47) ++ "..." := by
      unfold questionPreview
      rw [if_pos (by omega)]
    refine ⟨he, ?_⟩
    rw [he, String.length_append]
    have hd : t.data.length = t.length := rfl
    have : (String.mk (t.data.take 47)).length = 47 := by
      show (t.data.take 47).length = 47
      rw [List.length_take]
      omega
    rw [this]
    rfl

/-- Witness for claim C7 at concrete inputs: the 50-character text is
unchanged and the 60-character text becomes 47 characters plus dots, 50
in total. -/
theorem c7_preview_truncation_witness :
    questionPreview text50 = text50 ∧
      questionPreview text60 = String.mk (text60.data.take 47) ++ "..." ∧
        (questionPreview text60).length = 50 :=
  ⟨(c7_preview_truncation text50).1 (by decide),
   ((c7_preview_truncation text60).2 (by decide)).1,
   ((c7_preview_truncation text60).2 (by decide)).2⟩

/-- Claim C8: the parse-then-build pipeline is deterministic — two runs
on equal record sequences and equal fallback section ids produce equal
results (the embedded pipeline is a pure function). -/
theorem c8_pipeline_deterministic :
    ∀ (records₁ records₂ : List RawRecord) (sid₁ sid₂ : String),
      records₁ = records₂ → sid₁ = sid₂ →
        runConvert records₁ sid₁ = runConvert records₂ sid₂ := by
  intro r1 r2 s1 s2 hr hs
  rw [hr, hs]

/-- Witness for claim C8: both runs on the same concrete input agree. -/
theorem c8_pipeline_deterministic_witness :
    runConvert determRecs "SEC" = runConvert determRecs "SEC" :=
  c8_pipeline_deterministic determRecs determRecs "SEC" "SEC" rfl rfl

/-- A two-element list contains both `"True"` and `"False"` exactly when
it is one of the two orderings of those values. -/
theorem two_choices_tf_iff (cs : List String) :
    (cs.length = 2 ∧ "True" ∈ cs ∧ "False" ∈ cs) ↔
      (cs = ["True", "False"] ∨ cs = ["False", "True"]) := by
  constructor
  · rintro ⟨hlen, hT, hF⟩
    match cs, hlen with
    | [a, b], _ =>
      simp only [List.mem_cons, List.not_mem_nil, or_false] at hT hF
      rcases hT with rfl | rfl
      · rcases hF with h | rfl
        · exact absurd h (by decide)
        · exact Or.inl rfl
      · rcases hF with rfl | h
        · exact Or.inr rfl
        · exact absurd h (by decide)
  · rintro (rfl | rfl) <;> exact ⟨rfl, by decide, by decide⟩

/-- The question type assigned by the parser, as a single expression:
`"MA"` whenever the correct-answer field contains a comma (this overrides
everything), else `"TF"` for the two-choice True/False shape, else
`"MC"`. -/
theorem parseRecord_type (r : RawRecord) (q : Question) (h : parseRecord r = some q) :
    q.type =
      if hasComma (pyStrip r.correctAnswer) then "MA"
      else if (extractChoices r.choiceCols).length = 2 ∧
          "True" ∈ extractChoices r.choiceCols ∧ "False" ∈ extractChoices r.choiceCols then "TF"
      else "MC" := by
  simp only [parseRecord] at h
  split at h
  · exact absurd h (by simp)
  · split at h
    · injection h with h
      subst h
      simp [*]
    · repeat' split at h
      all_goals
        injection h with h
        subst h
        simp [*]

/-- Counterexample to claim C2 as stated: this record satisfies the TF
condition (exactly two extracted choices, trimmed values `True` and
`False`), yet because its correct-answer field contains a comma the
parser assigns type `MA`, not `TF`. -/
theorem c2_tf_comma_counterexample :
    extractChoices tfCommaRec.choiceCols = ["True", "False"] ∧
      (parse_csv_questions [tfCommaRec]).map Question.type = ["MA"] :=
  ⟨rfl, rfl⟩

/-- Claim C2 (amended): the parser assigns `MA` exactly when the
correct-answer field contains a comma — even for records meeting the TF
condition — and, absent a comma, `TF` exactly when there are exactly two
extracted choices whose trimmed values are the set `{True, False}`, with
`MC` in every remaining case. -/
theorem c2_type_inference :
    ∀ (r : RawRecord) (q : Question), parseRecord r = some q →
      ((q.type = "MA" ↔ hasComma (pyStrip r.correctAnswer) = true) ∧
        (q.type = "TF" ↔
          (hasComma (pyStrip r.correctAnswer) = false ∧
            (extractChoices r.choiceCols = ["True", "False"] ∨
              extractChoices r.choiceCols = ["False", "True"]))) ∧
        (q.type = "MC" ↔
          (hasComma (pyStrip r.correctAnswer) = false ∧
            ¬(extractChoices r.choiceCols = ["True", "False"] ∨
              extractChoices r.choiceCols = ["False", "True"])))) := by
  intro r q h
  have ht := parseRecord_type r q h
  by_cases hc : hasComma (pyStrip r.correctAnswer) = true
  · rw [if_pos hc] at ht
    rw [ht, hc]
    refine ⟨by simp, ?_, ?_⟩ <;> simp [Bool.true_eq_false]
  · rw [if_neg hc] at ht
    have hc' : hasComma (pyStrip r.correctAnswer) = false := by
      cases hb : hasComma (pyStrip r.correctAnswer)
      · rfl
      · exact absurd hb hc
    by_cases htf : (extractChoices r.choiceCols).length = 2 ∧
        "True" ∈ extractChoices r.choiceCols ∧ "False" ∈ extractChoices r.choiceCols
    · rw [if_pos htf] at ht
      have htf' := (two_choices_tf_iff _).1 htf
      rw [ht, hc']
      refine ⟨by simp [Bool.false_eq_true], by simp [htf'], by simp [htf']⟩
    · rw [if_neg htf] at ht
      have htf' : ¬(extractChoices r.choiceCols = ["True", "False"] ∨
          extractChoices r.choiceCols = ["False", "True"]) :=
        fun hor => htf ((two_choices_tf_iff _).2 hor)
      rw [ht, hc']
      refine ⟨by simp [Bool.false_eq_true], by simp [htf'], by simp [htf']⟩

/-- Witness for the amended claim C2 at a concrete record: a comma-free
True/False record gets type `TF`. -/
theorem c2_type_inference_witness :
    (tfPlainQ.type = "MA" ↔ hasComma (pyStrip tfPlainRec.correctAnswer) = true) ∧
      (tfPlainQ.type = "TF" ↔
        (hasComma (pyStrip tfPlainRec.correctAnswer) = false ∧
          (extractChoices tfPlainRec.choiceCols = ["True", "False"] ∨
            extractChoices tfPlainRec.choiceCols = ["False", "True"]))) ∧
      (tfPlainQ.type = "MC" ↔
        (hasComma (pyStrip tfPlainRec.correctAnswer) = false ∧
          ¬(extractChoices tfPlainRec.choiceCols = ["True", "False"] ∨
            extractChoices tfPlainRec.choiceCols = ["False", "True"]))) :=
  c2_type_inference tfPlainRec tfPlainQ rfl

/-- Lists of at most one element have no duplicates. -/
theorem nodup_of_length_le_one {α : Type} (l : List α) (h : l.length ≤ 1) : l.Nodup := by
  match l, h with
  | [], _ => exact List.nodup_nil
  | [a], _ => exact List.nodup_singleton a

/-- The free-text fallback produces at most one index. -/
theorem textMatch_length_le_one (cs : List String) (ca : String) :
    (textMatch cs ca).length ≤ 1 := by
  unfold textMatch
  cases cs.findIdx? (fun c => pyLower c == pyLower ca) <;> simp

/-- Counterexample to claim C3 as stated: the multi-answer string
`"1, A"` produces the correct-indices list `[0, 0]`, which contains a
duplicate — `correctIndices` is not a duplicate-free set. -/
theorem c3_duplicate_indices_counterexample :
    (parse_csv_questions [dupTokenRec]).map Question.correct_indices = [[0, 0]] ∧
      ¬ ([(0 : Int), 0].Nodup) :=
  ⟨rfl, by decide⟩

/-- Claim C3 (amended): `correctIndices` is an ordered list, not a set.
Whenever the correct-answer field contains no comma it has at most one
element and hence no duplicates, but a comma-separated multi-answer whose
tokens resolve to the same index (such as `"1, A"`) yields duplicate
entries. -/
theorem c3_indices_nodup_without_comma :
    ∀ (r : RawRecord) (q : Question), parseRecord r = some q →
      hasComma (pyStrip r.correctAnswer) = false →
        q.correct_indices.length ≤ 1 ∧ q.correct_indices.Nodup := by
  intro r q h hc
  suffices hlen : q.correct_indices.length ≤ 1 from
    ⟨hlen, nodup_of_length_le_one _ hlen⟩
  simp only [parseRecord] at h
  split at h
  · exact absurd h (by simp)
  · repeat' split at h
    all_goals
      injection h with h
      subst h
      first
        | (simp_all; done)
        | exact textMatch_length_le_one _ _

/-- Witness for the amended claim C3 at a concrete comma-free record. -/
theorem c3_indices_nodup_witness :
    letterQ.correct_indices.length ≤ 1 ∧ letterQ.correct_indices.Nodup :=
  c3_indices_nodup_without_comma letterRec letterQ rfl rfl

/-- Claim C4: when the trimmed correct-answer field contains a comma, the
parser yields type `MA` with the indices obtained by splitting on commas
and resolving each token after trimming and uppercasing — all-digit
tokens map to the parsed integer minus one, single-alphabetic tokens to
their alphabet position, and every other token is silently dropped — and
on the spec's example `"1, 3"` with four choices this gives `MA` with
indices `{0, 2}`. -/
theorem c4_multi_answer_resolution :
    (∀ (r : RawRecord) (q : Question), parseRecord r = some q →
        hasComma (pyStrip r.correctAnswer) = true →
          q.type = "MA" ∧
            q.correct_indices =
              (splitComma (pyStrip r.correctAnswer).data).filterMap resolveToken) ∧
      (∀ tok : List Char, isDigitL ((stripL tok).map upperChar) = true →
          resolveToken tok = some ((natOfDigits ((stripL tok).map upperChar) : Int) - 1)) ∧
      (∀ tok : List Char, isDigitL ((stripL tok).map upperChar) = false →
          ((stripL tok).map upperChar).length = 1 →
            isAlphaL ((stripL tok).map upperChar) = true →
              resolveToken tok =
                some (((((stripL tok).map upperChar).headD ' ').toNat : Int) - 65)) ∧
      (∀ tok : List Char, isDigitL ((stripL tok).map upperChar) = false →
          ¬(((stripL tok).map upperChar).length = 1 ∧
              isAlphaL ((stripL tok).map upperChar) = true) →
            resolveToken tok = none) ∧
      (parse_csv_questions [multiRec]).map (fun q => (q.type, q.correct_indices)) =
        [("MA", [0, 2])] ∧
      ([(0 : Int), 2] : List Int).toFinset = {0, 2} := by
  refine ⟨?_, ?_, ?_, ?_, rfl, rfl⟩
  · intro r q h hc
    simp only [parseRecord] at h
    split at h
    · exact absurd h (by simp)
    · injection h with h
      subst h
      exact ⟨rfl, rfl⟩
  · intro tok hd
    unfold resolveToken
    rw [if_pos hd]
  · intro tok hd h1 ha
    unfold resolveToken
    rw [if_neg (by simp [hd]), if_pos (And.intro h1 ha)]
  · intro tok hd hna
    unfold resolveToken
    rw [if_neg (by simp [hd]), if_neg hna]

/-- Witness for claim C4 at the spec's example record: the parsed
question has type `MA` and indices derived token-by-token from
`"1, 3"`. -/
theorem c4_multi_answer_witness :
    multiQ.type = "MA" ∧
      multiQ.correct_indices =
        (splitComma (pyStrip multiRec.correctAnswer).data).filterMap resolveToken :=
  c4_multi_answer_resolution.1 multiRec multiQ rfl rfl

/-- Bumping a key adds exactly one to the total of the counts. -/
theorem bump_snd_sum (k : String) (acc : List (String × Nat)) :
    ((bump k acc).map Prod.snd).sum = ((acc.map Prod.snd).sum) + 1 := by
  induction acc with
  | nil => rfl
  | cons p rest ih =>
    obtain ⟨k', c⟩ := p
    by_cases h : k = k'
    · simp only [bump, if_pos h, List.map_cons, List.sum_cons]
      omega
    · simp only [bump, if_neg h, List.map_cons, List.sum_cons, ih]
      omega

/-- Bumping a key adds that key to the key set and nothing else. -/
theorem mem_keys_bump (x k : String) (acc : List (String × Nat)) :
    x ∈ (bump k acc).map Prod.fst ↔ x = k ∨ x ∈ acc.map Prod.fst := by
  induction acc with
  | nil => simp [bump]
  | cons p rest ih =>
    obtain ⟨k', c⟩ := p
    by_cases h : k = k'
    · subst h
      simp [bump]
    · simp only [bump, if_neg h, List.map_cons, List.mem_cons, ih]
      tauto

/-- Bumping preserves distinctness of the keys. -/
theorem nodup_keys_bump (k : String) (acc : List (String × Nat))
    (h : (acc.map Prod.fst).Nodup) : ((bump k acc).map Prod.fst).Nodup := by
  induction acc with
  | nil => simp [bump]
  | cons p rest ih =>
    obtain ⟨k', c⟩ := p
    simp only [List.map_cons, List.nodup_cons] at h
    by_cases hk : k = k'
    · subst hk
      simpa [bump] using h
    · simp only [bump, if_neg hk, List.map_cons, List.nodup_cons]
      refine ⟨?_, ih h.2⟩
      rw [mem_keys_bump]
      rintro (rfl | hm)
      · exact hk rfl
      · exact h.1 hm

/-- Folding the per-question bump over any accumulator adds the number of
questions to the total of the counts. -/
theorem foldl_bump_sum (sid : String) (qs : List Question) :
    ∀ acc : List (String × Nat),
      (((qs.foldl (fun acc q => bump (effSource sid q) acc) acc)).map Prod.snd).sum =
        (acc.map Prod.snd).sum + qs.length := by
  induction qs with
  | nil => intro acc; simp
  | cons q qs ih =>
    intro acc
    rw [List.foldl_cons, ih, bump_snd_sum]
    simp
    omega

/-- A tag is a key of the folded counts exactly when it is a key of the
accumulator or the effective source of some processed question. -/
theorem mem_keys_foldl_bump (sid : String) (qs : List Question) :
    ∀ (acc : List (String × Nat)) (x : String),
      x ∈ ((qs.foldl (fun acc q => bump (effSource sid q) acc) acc)).map Prod.fst ↔
        x ∈ acc.map Prod.fst ∨ x ∈ qs.map (effSource sid) := by
  induction qs with
  | nil => intro acc x; simp
  | cons q qs ih =>
    intro acc x
    rw [List.foldl_cons, ih, mem_keys_bump]
    simp
    tauto

/-- Folding the per-question bump preserves distinctness of the keys. -/
theorem nodup_keys_foldl_bump (sid : String) (qs : List Question) :
    ∀ acc : List (String × Nat),
      (acc.map Prod.fst).Nodup →
        (((qs.foldl (fun acc q => bump (effSource sid q) acc) acc)).map Prod.fst).Nodup := by
  induction qs with
  | nil => intro acc h; simpa using h
  | cons q qs ih =>
    intro acc h
    rw [List.foldl_cons]
    exact ih _ (nodup_keys_bump _ _ h)

/-- The per-section counts total exactly the number of questions. -/
theorem sectionCounts_sum (qs : List Question) (sid : String) :
    ((sectionCounts qs sid).map Prod.snd).sum = qs.length := by
  unfold sectionCounts
  rw [foldl_bump_sum]
  simp

/-- The keys of the per-section counts are distinct. -/
theorem sectionCounts_keys_nodup (qs : List Question) (sid : String) :
    ((sectionCounts qs sid).map Prod.fst).Nodup :=
  nodup_keys_foldl_bump sid qs [] (by simp)

/-- The keys of the per-section counts are exactly the effective sources
occurring among the questions. -/
theorem mem_sectionCounts_keys (qs : List Question) (sid : String) (x : String) :
    x ∈ (sectionCounts qs sid).map Prod.fst ↔ x ∈ qs.map (effSource sid) := by
  unfold sectionCounts
  rw [mem_keys_foldl_bump]
  simp

/-- The number of per-section count entries equals the number of distinct
effective sources. -/
theorem sectionCounts_length (qs : List Question) (sid : String) :
    (sectionCounts qs sid).length = ((qs.map (effSource sid)).dedup).length := by
  have hn : ((sectionCounts qs sid).map Prod.fst).Nodup := sectionCounts_keys_nodup qs sid
  have hm : ∀ x, x ∈ (sectionCounts qs sid).map Prod.fst ↔
      x ∈ (qs.map (effSource sid)).dedup := by
    intro x
    rw [mem_sectionCounts_keys, List.mem_dedup]
  have hperm : ((sectionCounts qs sid).map Prod.fst).Perm ((qs.map (effSource sid)).dedup) :=
    (List.perm_ext_iff_of_nodup hn (List.nodup_dedup _)).2 hm
  have := hperm.length_eq
  simpa using this

/-- A successful `insertE` returns a permutation of the element together
with the list. -/
theorem insertE_perm {α : Type} (cmp : α → α → Except String Bool) (x : α) :
    ∀ (l r : List α), insertE cmp x l = Except.ok r → r.Perm (x :: l) := by
  intro l
  induction l with
  | nil =>
    intro r h
    simp only [insertE] at h
    injection h with h
    subst h
    exact List.Perm.refl _
  | cons y ys ih =>
    intro r h
    simp only [insertE] at h
    cases hc : cmp x y with
    | error e => rw [hc] at h; exact absurd h (by simp)
    | ok b =>
      rw [hc] at h
      cases b with
      | true =>
        injection h with h
        subst h
        exact List.Perm.refl _
      | false =>
        cases hr : insertE cmp x ys with
        | error e => rw [hr] at h; exact absurd h (by simp)
        | ok r' =>
          rw [hr] at h
          injection h with h
          subst h
          exact ((ih r' hr).cons y).trans (List.Perm.swap x y ys)

/-- A successful `sortE` returns a permutation of its input. -/
theorem sortE_perm {α : Type} (cmp : α → α → Except String Bool) :
    ∀ (l r : List α), sortE cmp l = Except.ok r → r.Perm l := by
  intro l
  induction l with
  | nil =>
    intro r h
    simp only [sortE] at h
    injection h with h
    subst h
    exact List.Perm.refl _
  | cons x xs ih =>
    intro r h
    simp only [sortE] at h
    cases hs : sortE cmp xs with
    | error e => rw [hs] at h; exact absurd h (by simp)
    | ok r' =>
      rw [hs] at h
      exact (insertE_perm cmp x r' r h).trans ((ih r' hs).cons x)

/-- Claim C9: the Debug table's per-source counts partition the
questions — the counts total the number of questions (both in the raw
`section_counts` mapping and in any successfully sorted Track Details
list, which is a permutation of it), the Total Tracks/Sections value is
the number of distinct effective source tags, and the summary rows of a
successfully built Debug table display exactly these two values. -/
theorem c9_section_counts_partition :
    ∀ (qs : List Question) (sid : String),
      ((sectionCounts qs sid).map Prod.snd).sum = qs.length ∧
        (sectionCounts qs sid).length = ((qs.map (effSource sid)).dedup).length ∧
        (∀ l, sortE itemLe (sectionCounts qs sid) = Except.ok l →
          (l.map Prod.snd).sum = qs.length) ∧
        (∀ t, debugTable qs sid = Except.ok t →
          t[1]? = some [Cell.str "Total Questions Parsed", Cell.int (qs.length : Int)] ∧
            t[2]? = some [Cell.str "Total Tracks/Sections",
              Cell.int ((sectionCounts qs sid).length : Int)]) := by
  intro qs sid
  refine ⟨sectionCounts_sum qs sid, sectionCounts_length qs sid, ?_, ?_⟩
  · intro l hl
    have hperm := sortE_perm itemLe (sectionCounts qs sid) l hl
    rw [(hperm.map Prod.snd).sum_eq]
    exact sectionCounts_sum qs sid
  · intro t ht
    simp only [debugTable] at ht
    cases hs : sortE itemLe (sectionCounts qs sid) with
    | error e => rw [hs] at ht; exact absurd ht (by simp)
    | ok l =>
      rw [hs] at ht
      injection ht with ht
      subst ht
      exact ⟨rfl, rfl⟩

/-- Witness for claim C9 at a concrete question list: sums and counts
match for the raw mapping, the sorted rows, and the displayed table. -/
theorem c9_section_counts_witness :
    ((sectionCounts partitionQs "D").map Prod.snd).sum = partitionQs.length ∧
      (sectionCounts partitionQs "D").length =
        ((partitionQs.map (effSource "D")).dedup).length ∧
      ([(("1.1", 2) : String × Nat), ("1.2", 1)].map Prod.snd).sum = partitionQs.length :=
  ⟨(c9_section_counts_partition partitionQs "D").1,
   (c9_section_counts_partition partitionQs "D").2.1,
   (c9_section_counts_partition partitionQs "D").2.2.1 [("1.1", 2), ("1.2", 1)] rfl⟩

/-- The Correct-column cells of the per-choice data rows, read off the
enumerated remaining choices. -/
theorem enumFrom_mark_col (q : Question) :
    ∀ (l : List String) (n : Nat),
      (List.enumFrom n l).map
          ((fun row : List String => row[4]?) ∘
            (fun ic => ["", "", "", ic.2, markCell ic.1 q, "", ""])) =
        (List.range' n l.length).map (fun i => some (markCell i q)) := by
  intro l
  induction l with
  | nil => intro n; rfl
  | cons a l ih =>
    intro n
    simp only [List.enumFrom, List.map_cons]
    rw [ih (n + 1)]
    rfl

/-- Claim C10: in any question's Questions-table block, the Correct
column holds a `"1"` exactly at data rows for indices `i < len(choices)`
with `i` in the correct-index list (followed by the blank separator's
empty cell) — so an out-of-range index such as 8 with four choices
produces no marker anywhere, even though the Debug audit row still shows
its letter `I`. -/
theorem c10_correct_marker_in_range :
    (∀ (sid : String) (q : Question),
        (questionRows sid q).map (fun row => row[4]?) =
          ((List.range q.choices.length).map
            (fun i : Nat => some (if (i : Int) ∈ q.correct_indices then "1" else ""))) ++
            [some ""]) ∧
      (questionRows "D" outOfRangeQ).map (fun row => row[4]?) =
        [some "", some "", some "", some "", some ""] ∧
      correctLetter outOfRangeQ = "I" := by
  refine ⟨?_, rfl, rfl⟩
  intro sid q
  unfold questionRows
  cases q.choices with
  | nil => rfl
  | cons c0 rest =>
    rw [List.map_append, List.map_cons, List.map_map, enumFrom_mark_col,
      List.range_eq_range']
    rfl

end CsvToXlsx
